import Mathlib

/-!
Verification of the core logic of the two lyon wgpu example programs
(`examples/wgpu/src/main.rs`, the procedural variant, and
`examples/wgpu_svg/src/main.rs`, the SVG variant).

Numeric state is modelled over `ℚ`; the GPU device, windowing system,
document parser and the tessellation engine proper are external
collaborators, so the values they feed into this code (engine vertices,
index lists, parsed documents) appear as parameters of the embedded
functions.  Assertions are modelled by `Option`-returning functions
(`none` = the assertion fires and the program aborts).
-/

/-- A component of a floating point vector: a rational value together with a
NaN flag.  Arithmetic is never performed on these by the embedded code; they
are only checked for NaN and forwarded, which this model captures exactly. -/
structure F32 where
  val : ℚ
  isNan : Bool
deriving DecidableEq

/-- A 2d point/vector of `F32` components (`lyon::math::Point`). -/
structure PointF where
  x : F32
  y : F32
deriving DecidableEq

/-- `lyon::tessellation::FillVertex`: position and normal. -/
structure FillVertex where
  position : PointF
  normal : PointF
deriving DecidableEq

/-- `lyon::tessellation::StrokeVertex`: position, normal and advancement. -/
structure StrokeVertex where
  position : PointF
  normal : PointF
  advancement : F32
deriving DecidableEq

namespace Wgpu

/-- `GpuVertex` of the procedural variant (position, normal, prim_id). -/
structure GpuVertex where
  position : PointF
  normal : PointF
  prim_id : Int
deriving DecidableEq

/-- `impl VertexConstructor<FillVertex, GpuVertex> for WithId`: debug-asserts
that no position/normal component is NaN, then forwards them together with
the primitive id bound at construction time (`self.0`).  `none` models the
assertion firing. -/
def WithId.newFillVertex (id : Int) (v : FillVertex) : Option GpuVertex :=
  if v.position.x.isNan ∨ v.position.y.isNan ∨ v.normal.x.isNan ∨ v.normal.y.isNan then
    none
  else
    some { position := v.position, normal := v.normal, prim_id := id }

/-- `impl VertexConstructor<StrokeVertex, GpuVertex> for WithId`: also
debug-asserts that the advancement is not NaN. -/
def WithId.newStrokeVertex (id : Int) (v : StrokeVertex) : Option GpuVertex :=
  if v.position.x.isNan ∨ v.position.y.isNan ∨ v.normal.x.isNan ∨ v.normal.y.isNan
      ∨ v.advancement.isNan then
    none
  else
    some { position := v.position, normal := v.normal, prim_id := id }

/-- `impl VertexConstructor<FillVertex, Point> for BgVertexCtor`: forwards the
position unchanged.  The source performs no NaN check here. -/
def BgVertexCtor.newVertex (v : FillVertex) : PointF :=
  v.position

end Wgpu

/-- One exponential smoothing step `current + (target - current) / k`, the
expression `update_inputs` applies with `k = 3` (zoom, scroll) and `k = 5`
(stroke width). -/
def smoothStep (k current target : ℚ) : ℚ :=
  current + (target - current) / k

namespace Wgpu

/-- Keyboard keys handled by the procedural variant's `update_inputs`. -/
inductive Key
  | escape | pageDown | pageUp | left | right | up | down
  | p | w | b | a | z
  | otherKey
deriving DecidableEq

/-- The winit events the procedural variant's `update_inputs` matches on. -/
inductive Evt
  | eventsCleared
  | destroyed
  | closeRequested
  | cursorMoved (x y : ℚ)
  | resized (w h : ℚ)
  | keyPressed (k : Key)
  | other
deriving DecidableEq

/-- `winit::event_loop::ControlFlow` (the two values this code uses). -/
inductive ControlFlow
  | poll
  | exit
deriving DecidableEq

/-- `SceneParams` of the procedural variant. -/
structure SceneParams where
  target_zoom : ℚ
  zoom : ℚ
  target_scroll : ℚ × ℚ
  scroll : ℚ × ℚ
  show_points : Bool
  show_wireframe : Bool
  stroke_width : ℚ
  target_stroke_width : ℚ
  draw_background : Bool
  cursor_position : ℚ × ℚ
  window_size : ℚ × ℚ
  size_changed : Bool
deriving DecidableEq

/-- The three smoothing assignments at the end of `update_inputs`
(zoom and scroll with `k = 3`, stroke width with `k = 5`). -/
def smoothScene (s : SceneParams) : SceneParams :=
  { s with
    zoom := smoothStep 3 s.zoom s.target_zoom
    scroll := (smoothStep 3 s.scroll.1 s.target_scroll.1,
               smoothStep 3 s.scroll.2 s.target_scroll.2)
    stroke_width := smoothStep 5 s.stroke_width s.target_stroke_width }

/-- Effect of a pressed key on the scene, from the `match key` block of the
procedural `update_inputs` (Escape is handled separately: it returns early). -/
def applyKey (k : Key) (s : SceneParams) : SceneParams :=
  match k with
  | .pageDown => { s with target_zoom := s.target_zoom * (4/5) }
  | .pageUp => { s with target_zoom := s.target_zoom * (5/4) }
  | .left => { s with target_scroll := (s.target_scroll.1 - 50 / s.target_zoom, s.target_scroll.2) }
  | .right => { s with target_scroll := (s.target_scroll.1 + 50 / s.target_zoom, s.target_scroll.2) }
  | .up => { s with target_scroll := (s.target_scroll.1, s.target_scroll.2 - 50 / s.target_zoom) }
  | .down => { s with target_scroll := (s.target_scroll.1, s.target_scroll.2 + 50 / s.target_zoom) }
  | .p => { s with show_points := !s.show_points }
  | .w => { s with show_wireframe := !s.show_wireframe }
  | .b => { s with draw_background := !s.draw_background }
  | .a => { s with target_stroke_width := s.target_stroke_width / (4/5) }
  | .z => { s with target_stroke_width := s.target_stroke_width * (4/5) }
  | .escape => s
  | .otherKey => s

/-- `update_inputs` of the procedural variant.  Returns the function's `bool`
result (`true` = keep polling, `false` = render this tick) together with the
control flow and scene after the `&mut` writes. -/
def update_inputs (event : Evt) (cf : ControlFlow) (scene : SceneParams) :
    Bool × ControlFlow × SceneParams :=
  match event with
  | .eventsCleared => (false, cf, scene)
  | .destroyed => (false, .exit, scene)
  | .closeRequested => (false, .exit, scene)
  | .keyPressed .escape => (false, .exit, scene)
  | .keyPressed k => (true, .poll, smoothScene (applyKey k scene))
  | .cursorMoved x y => (true, .poll, smoothScene { scene with cursor_position := (x, y) })
  | .resized w h =>
      (true, .poll, smoothScene { scene with window_size := (w, h), size_changed := true })
  | .other => (true, .poll, smoothScene scene)

/-- One iteration of the closure passed to `event_loop.run` in the procedural
variant's `main`: if `update_inputs` returns `true` the body returns at once
(keep polling, no rendering); otherwise the body consumes the `size_changed`
flag and renders a frame — it stages the primitive table and the globals
record, copies both into the GPU uniform buffers and submits the draw calls.
`rendered` records whether those writes and draws happened this tick. -/
structure TickResult where
  cf : ControlFlow
  scene : SceneParams
  rendered : Bool
deriving DecidableEq

/-- The loop body of the procedural variant's `main`. -/
def mainLoopTick (event : Evt) (cf : ControlFlow) (scene : SceneParams) : TickResult :=
  let r := update_inputs event cf scene
  if r.1 then
    { cf := r.2.1, scene := r.2.2, rendered := false }
  else
    let s := r.2.2
    let s := if s.size_changed then { s with size_changed := false } else s
    { cf := r.2.1, scene := s, rendered := true }

/-- The event loop driver: runs `mainLoopTick` on each event in order and —
this is winit's documented `ControlFlow::Exit` contract — dispatches no
further events once a tick has set the control flow to `exit`.  Returns the
number of frames rendered (ticks that wrote the uniform buffers and submitted
draw calls). -/
def runLoop (events : List Evt) (cf : ControlFlow) (scene : SceneParams) : ℕ :=
  match events with
  | [] => 0
  | e :: rest =>
      let r := mainLoopTick e cf scene
      (if r.rendered then 1 else 0) +
        (if r.cf = .exit then 0 else runLoop rest r.cf r.scene)

/-- `lyon::tessellation::geometry_builder::VertexBuffers`: a growing vertex
list and a growing index list, shared by successive tessellation passes. -/
structure VertexBuffers (V : Type) where
  vertices : List V
  indices : List ℕ
deriving DecidableEq

/-- The `Count` record a tessellator returns: how many vertices and indices
the pass added to the buffers. -/
structure TessCount where
  vertices : ℕ
  indices : ℕ
deriving DecidableEq

/-- One tessellation pass appending into shared `VertexBuffers` through a
`BuffersBuilder` and returning the `Count` of what it appended.  The actual
vertex/index content is produced by the external tessellation engine and is
therefore a parameter. -/
def tessellateInto (buf : VertexBuffers V) (newVertices : List V) (newIndices : List ℕ) :
    VertexBuffers V × TessCount :=
  ({ vertices := buf.vertices ++ newVertices, indices := buf.indices ++ newIndices },
   { vertices := newVertices.length, indices := newIndices.length })

/-- The geometry construction of the procedural variant's `main`: the fill
pass then the stroke pass append into one `VertexBuffers`, and
`fill_range = 0..fill_count.indices`,
`stroke_range = fill_range.end..geometry.indices.len()` are recorded. -/
structure LogoGeometry where
  geometry : VertexBuffers GpuVertex
  fill_range : ℕ × ℕ
  stroke_range : ℕ × ℕ
deriving DecidableEq

/-- `let stroke_prim_id = 0;` -/
def stroke_prim_id : Int := 0

/-- `let fill_prim_id = 1;` -/
def fill_prim_id : Int := 1

/-- `main`'s fill-then-stroke tessellation into one shared buffer.  The
engine vertices of each pass (produced by the external tessellators for the
logo path) are parameters; the `BuffersBuilder` feeds each one through
`WithId(fill_prim_id)` resp. `WithId(stroke_prim_id)`.  `none` models a NaN
assertion firing in a constructor. -/
def buildLogoGeometry (fillEngineVertices : List FillVertex) (fillIndices : List ℕ)
    (strokeEngineVertices : List StrokeVertex) (strokeIndices : List ℕ) :
    Option LogoGeometry := do
  let g0 : VertexBuffers GpuVertex := { vertices := [], indices := [] }
  let fillVertices ← fillEngineVertices.mapM (WithId.newFillVertex fill_prim_id)
  let r1 := tessellateInto g0 fillVertices fillIndices
  let fill_count := r1.2
  let strokeVertices ← strokeEngineVertices.mapM (WithId.newStrokeVertex stroke_prim_id)
  let r2 := tessellateInto r1.1 strokeVertices strokeIndices
  pure { geometry := r2.1
         fill_range := (0, fill_count.indices)
         stroke_range := (fill_count.indices, r2.1.indices.length) }

end Wgpu

namespace Svg

/-- `GpuVertex` of the SVG variant (position and prim_id only). -/
structure GpuVertex where
  position : PointF
  prim_id : ℕ
deriving DecidableEq

/-- `impl VertexConstructor<FillVertex, GpuVertex> for VertexCtor`:
asserts that neither position component is NaN (the normal is not checked),
then forwards the position with the bound `prim_id`. -/
def VertexCtor.newFillVertex (primId : ℕ) (v : FillVertex) : Option GpuVertex :=
  if v.position.x.isNan ∨ v.position.y.isNan then
    none
  else
    some { position := v.position, prim_id := primId }

/-- `impl VertexConstructor<StrokeVertex, GpuVertex> for VertexCtor`:
asserts that neither position component is NaN (normal and advancement are
not checked), then forwards the position with the bound `prim_id`. -/
def VertexCtor.newStrokeVertex (primId : ℕ) (v : StrokeVertex) : Option GpuVertex :=
  if v.position.x.isNan ∨ v.position.y.isNan then
    none
  else
    some { position := v.position, prim_id := primId }

/-- `usvg::Transform`, a 2×3 affine matrix. -/
structure Transform where
  a : ℚ
  b : ℚ
  c : ℚ
  d : ℚ
  e : ℚ
  f : ℚ
deriving DecidableEq

/-- `GpuTransform`: the matrix packed into two vec4s (last two entries of
`data1` unused and zero). -/
structure GpuTransform where
  data0 : ℚ × ℚ × ℚ × ℚ
  data1 : ℚ × ℚ × ℚ × ℚ
deriving DecidableEq

/-- The `GpuTransform` record pushed for a document transform `t`. -/
def GpuTransform.ofTransform (t : Transform) : GpuTransform :=
  { data0 := (t.a, t.b, t.c, t.d), data1 := (t.e, t.f, 0, 0) }

/-- `usvg::Color` (8-bit channels). -/
structure Color where
  red : ℕ
  green : ℕ
  blue : ℕ
deriving DecidableEq

/-- `FALLBACK_COLOR`: black. -/
def FALLBACK_COLOR : Color := { red := 0, green := 0, blue := 0 }

/-- `usvg::Paint`: only solid colors are handled; everything else falls back. -/
inductive Paint
  | color (c : Color)
  | other
deriving DecidableEq

/-- The `match fill.paint { Color(c) => c, _ => FALLBACK_COLOR }` resolution. -/
def resolvePaint : Paint → Color
  | .color c => c
  | .other => FALLBACK_COLOR

/-- `GpuPrimitive`: transform index and packed color. -/
structure GpuPrimitive where
  transform : ℕ
  color : ℕ
deriving DecidableEq

/-- `GpuPrimitive::new`: packs the color as
`(r << 24) + (g << 16) + (b << 8) + (alpha * 255) as u32`. -/
def GpuPrimitive.new (transform_idx : ℕ) (c : Color) (alpha : ℚ) : GpuPrimitive :=
  { transform := transform_idx
    color := c.red * 2 ^ 24 + c.green * 2 ^ 16 + c.blue * 2 ^ 8 + (alpha * 255).floor.toNat }

/-- A fill operation of a document path node: paint, opacity, and the fill
vertices the external tessellation engine produces for that path. -/
structure FillData where
  paint : Paint
  opacity : ℚ
  engineVertices : List FillVertex
deriving DecidableEq

/-- A stroke operation of a document path node: paint, opacity, and the
stroke vertices the external tessellation engine produces for that path. -/
structure StrokeData where
  paint : Paint
  opacity : ℚ
  engineVertices : List StrokeVertex
deriving DecidableEq

/-- A path node of the parsed document tree, in traversal order: its
local-to-root transform and its optional fill and stroke operations. -/
structure SvgNode where
  transform : Transform
  fill : Option FillData
  stroke : Option StrokeData
deriving DecidableEq

/-- The mutable state of the document traversal in the SVG variant's `main`:
the transform table, the primitive table, the shared mesh, and the previous
node transform.  `prevTransform = none` models the initial all-NaN sentinel
transform, which compares unequal to every document transform. -/
structure BuildState where
  transforms : List GpuTransform
  primitives : List GpuPrimitive
  mesh : List GpuVertex
  prevTransform : Option Transform
deriving DecidableEq

/-- The initial traversal state. -/
def initBuildState : BuildState :=
  { transforms := [], primitives := [], mesh := [], prevTransform := none }

/-- The `if let Some(ref fill) = p.fill` block: push a `GpuPrimitive` for the
fill and tessellate the path with `prim_id = primitives.len() - 1`, appending
the constructed vertices to the mesh.  `none` models the NaN assertion firing
inside the vertex constructor. -/
def fillStep (transform_idx : ℕ) (fill : Option FillData)
    (primitives : List GpuPrimitive) (mesh : List GpuVertex) :
    Option (List GpuPrimitive × List GpuVertex) :=
  match fill with
  | some fd =>
      let prims := primitives ++
        [GpuPrimitive.new transform_idx (resolvePaint fd.paint) fd.opacity]
      (fd.engineVertices.mapM (VertexCtor.newFillVertex (prims.length - 1))).map
        (fun newVerts => (prims, mesh ++ newVerts))
  | none => some (primitives, mesh)

/-- The `if let Some(ref stroke) = p.stroke` block, analogous to `fillStep`
(the stroke tessellation's error return is ignored with `let _ =`, but the
NaN assertions inside the vertex constructor still abort). -/
def strokeStep (transform_idx : ℕ) (stroke : Option StrokeData)
    (primitives : List GpuPrimitive) (mesh : List GpuVertex) :
    Option (List GpuPrimitive × List GpuVertex) :=
  match stroke with
  | some sd =>
      let prims := primitives ++
        [GpuPrimitive.new transform_idx (resolvePaint sd.paint) sd.opacity]
      (sd.engineVertices.mapM (VertexCtor.newStrokeVertex (prims.length - 1))).map
        (fun newVerts => (prims, mesh ++ newVerts))
  | none => some (primitives, mesh)

/-- Processing of one path node in the SVG variant's `main` loop over
`rtree.root().descendants()`: push the transform if it differs from the
previous one, then run the fill block and the stroke block. -/
def processNode (st : BuildState) (n : SvgNode) : Option BuildState := do
  let transforms :=
    if some n.transform ≠ st.prevTransform then
      st.transforms ++ [GpuTransform.ofTransform n.transform]
    else
      st.transforms
  let transform_idx := transforms.length - 1
  let pm ← fillStep transform_idx n.fill st.primitives st.mesh
  let pm ← strokeStep transform_idx n.stroke pm.1 pm.2
  pure { transforms := transforms, primitives := pm.1, mesh := pm.2,
         prevTransform := some n.transform }

/-- The whole geometry-construction traversal of the SVG variant's `main`. -/
def svgBuild (nodes : List SvgNode) : Option BuildState :=
  nodes.foldlM processNode initBuildState

/-- The mesh decomposes into one contiguous vertex segment per tessellation
pass, in pass order, and the vertices of the `i`-th pass (one pass per entry
of the primitive table, so ids are the dense range `0..count`) all carry
`prim_id = i`. -/
def tagged (primitives : List GpuPrimitive) (mesh : List GpuVertex) : Prop :=
  ∃ segs : List (List GpuVertex),
    mesh = segs.flatten ∧
    segs.length = primitives.length ∧
    ∀ i < segs.length, ∀ v ∈ segs.getD i [], v.prim_id = i

/-- `tagged` for a traversal state. -/
def meshTagged (st : BuildState) : Prop :=
  tagged st.primitives st.mesh

/-- The transform records pushed by the traversal when the not-yet-seen
transforms are `ts` and the previously seen one is `prev` (`none` models the
initial NaN sentinel, which differs from everything). -/
def dedupFrom (prev : Option Transform) : List Transform → List Transform
  | [] => []
  | t :: ts => (if some t ≠ prev then [t] else []) ++ dedupFrom (some t) ts

/-- The spec's description of transform deduplication, written from its
words: keep the first transform, then keep each later transform exactly when
it differs from the immediately previous one (consecutive repeats collapse,
non-adjacent repeats are kept again). -/
def specCollapseConsecutive : List Transform → List Transform
  | [] => []
  | t :: ts => t :: go t ts
where
  /-- Keep each transform that differs from the immediately previous one. -/
  go (prev : Transform) : List Transform → List Transform
  | [] => []
  | t :: ts => if t = prev then go t ts else t :: go t ts

/-- A document path node carrying a transform and no paint at all. -/
def plainNode (t : Transform) : SvgNode :=
  { transform := t, fill := none, stroke := none }

/-- A plain 2d point (no NaN tracking needed for the path adapter claims). -/
abbrev Pt : Type := ℚ × ℚ

/-- `usvg::PathSegment`. -/
inductive PathSegment
  | moveTo (x y : ℚ)
  | lineTo (x y : ℚ)
  | curveTo (x1 y1 x2 y2 x y : ℚ)
  | closePath
deriving DecidableEq

/-- `lyon::path::PathEvent` as produced by `PathConvIter` (segments carry
their endpoints; `cubic` also carries the two control points). -/
inductive PathEvent
  | moveTo (p : Pt)
  | line (from' to' : Pt)
  | cubic (from' ctrl1 ctrl2 to' : Pt)
  | close (from' to' : Pt)
deriving DecidableEq

/-- The iterator state of `PathConvIter`: the current point `prev` and the
first point of the current subpath `first`. -/
structure ConvState where
  prev : Pt
  first : Pt
deriving DecidableEq

/-- One step of `PathConvIter::next` on a present segment: updates the state
and emits the converted event.  Note the `ClosePath` arm assigns
`self.prev = self.first` before building the segment, so the emitted close
segment is `{ from: first, to: first }`. -/
def convStep (st : ConvState) : PathSegment → ConvState × PathEvent
  | .moveTo x y =>
      ({ prev := (x, y), first := (x, y) }, .moveTo (x, y))
  | .lineTo x y =>
      ({ st with prev := (x, y) }, .line st.prev (x, y))
  | .curveTo x1 y1 x2 y2 x y =>
      ({ st with prev := (x, y) }, .cubic st.prev (x1, y1) (x2, y2) (x, y))
  | .closePath =>
      ({ st with prev := st.first }, .close st.first st.first)

/-- Draining `PathConvIter` built by `convert_path` (initial `prev` and
`first` are `(0, 0)`): the list of emitted path events. -/
def convertPathFrom (st : ConvState) : List PathSegment → List PathEvent
  | [] => []
  | seg :: rest =>
      let r := convStep st seg
      r.2 :: convertPathFrom r.1 rest

/-- `convert_path`: the event stream for a document path's segment list. -/
def convertPath (segs : List PathSegment) : List PathEvent :=
  convertPathFrom { prev := (0, 0), first := (0, 0) } segs

/-- Keyboard keys handled by the SVG variant's `update_inputs`. -/
inductive Key
  | escape | pageDown | pageUp | left | right | up | down | w
  | otherKey
deriving DecidableEq

/-- The winit events the SVG variant's `update_inputs` matches on. -/
inductive Evt
  | eventsCleared
  | destroyed
  | closeRequested
  | resized (w h : ℚ)
  | keyPressed (k : Key)
  | other
deriving DecidableEq

/-- `SceneGlobals` of the SVG variant. -/
structure SceneGlobals where
  zoom : ℚ
  pan : ℚ × ℚ
  window_size : ℚ × ℚ
  wireframe : Bool
  size_changed : Bool
deriving DecidableEq

/-- Effect of a pressed key on the SVG scene, from the `match key` block
(Escape returns early and is handled in `update_inputs` itself).  The arrow
keys change a pan coordinate by `50.0` divided by that same pan coordinate. -/
def applyKey (k : Key) (s : SceneGlobals) : SceneGlobals :=
  match k with
  | .pageDown => { s with zoom := s.zoom * (4/5) }
  | .pageUp => { s with zoom := s.zoom * (5/4) }
  | .left => { s with pan := (s.pan.1 - 50 / s.pan.1, s.pan.2) }
  | .right => { s with pan := (s.pan.1 + 50 / s.pan.1, s.pan.2) }
  | .up => { s with pan := (s.pan.1, s.pan.2 + 50 / s.pan.2) }
  | .down => { s with pan := (s.pan.1, s.pan.2 - 50 / s.pan.2) }
  | .w => { s with wireframe := !s.wireframe }
  | .escape => s
  | .otherKey => s

/-- `update_inputs` of the SVG variant (no smoothing here: the scene holds
current values only). -/
def update_inputs (event : Evt) (cf : Wgpu.ControlFlow) (scene : SceneGlobals) :
    Bool × Wgpu.ControlFlow × SceneGlobals :=
  match event with
  | .eventsCleared => (false, cf, scene)
  | .destroyed => (false, .exit, scene)
  | .closeRequested => (false, .exit, scene)
  | .keyPressed .escape => (false, .exit, scene)
  | .keyPressed k => (true, .poll, applyKey k scene)
  | .resized w h =>
      (true, .poll, { scene with window_size := (w, h), size_changed := true })
  | .other => (true, .poll, scene)

/-- The `--msaa` handling at the top of the SVG variant's `main`.
The argument is `none` when the flag is absent, `some none` when the flag's
value fails to parse as `u32` (the program prints an error and exits, modelled
as `none`), and `some (some n)` for a successfully parsed value, in which
case the sample count is `n.min(1)`. -/
def msaaSamples : Option (Option ℕ) → Option ℕ
  | none => some 1
  | some none => none
  | some (some n) => some (min n 1)

end Svg


/-- Whether a path event is a `Close` event. -/
def Svg.PathEvent.isClose : Svg.PathEvent → Bool
  | .close _ _ => true
  | _ => false

/-- A sample fill vertex with no NaN component. -/
def fv0 : FillVertex :=
  { position := { x := { val := 1, isNan := false }, y := { val := 2, isNan := false } },
    normal := { x := { val := 0, isNan := false }, y := { val := 0, isNan := false } } }

/-- A sample stroke vertex with no NaN component. -/
def sv0 : StrokeVertex :=
  { position := { x := { val := 1, isNan := false }, y := { val := 2, isNan := false } },
    normal := { x := { val := 0, isNan := false }, y := { val := 0, isNan := false } },
    advancement := { val := 3, isNan := false } }

/-- A fill vertex whose position components are NaN. -/
def nanFillVertex : FillVertex :=
  { position := { x := { val := 0, isNan := true }, y := { val := 0, isNan := true } },
    normal := { x := { val := 0, isNan := false }, y := { val := 0, isNan := false } } }

/-- The GPU vertex `WithId(7)` builds from `fv0`. -/
def gfv0 : Wgpu.GpuVertex := { position := fv0.position, normal := fv0.normal, prim_id := 7 }

/-- The GPU vertex `WithId(5)` builds from `sv0`. -/
def gsv0 : Wgpu.GpuVertex := { position := sv0.position, normal := sv0.normal, prim_id := 5 }

/-- The SVG-variant GPU vertex `VertexCtor { prim_id: 3 }` builds from `fv0`. -/
def gsvg0 : Svg.GpuVertex := { position := fv0.position, prim_id := 3 }

/-- A sample document path node with a solid red fill and no stroke. -/
def node0 : Svg.SvgNode :=
  { transform := { a := 1, b := 0, c := 0, d := 1, e := 0, f := 0 },
    fill := some { paint := .color { red := 255, green := 0, blue := 0 }, opacity := 1,
                   engineVertices := [fv0] },
    stroke := none }

/-- The traversal state `svgBuild [node0]` produces. -/
def st0 : Svg.BuildState :=
  { transforms := [{ data0 := (1, 0, 0, 1), data1 := (0, 0, 0, 0) }],
    primitives := [{ transform := 0, color := 4278190335 }],
    mesh := [{ position := fv0.position, prim_id := 0 }],
    prevTransform := some { a := 1, b := 0, c := 0, d := 1, e := 0, f := 0 } }

/-- A sample procedural-variant scene with `zoom = 0` and `target_zoom = 3`. -/
def sProc0 : Wgpu.SceneParams :=
  { target_zoom := 3, zoom := 0, target_scroll := (0, 0), scroll := (0, 0),
    show_points := false, show_wireframe := false, stroke_width := 0,
    target_stroke_width := 0, draw_background := true, cursor_position := (0, 0),
    window_size := (800, 800), size_changed := false }

/-- A sample SVG-variant scene whose pan sits at the origin. -/
def sSvg0 : Svg.SceneGlobals :=
  { zoom := 1, pan := (0, 0), window_size := (800, 800),
    wireframe := false, size_changed := false }

/-! Helper lemmas. -/

/-- If every `some` result of `f` satisfies `P`, every element of a
successful `mapM f` run satisfies `P`. -/
theorem mapM_option_forall {α β : Type} {f : α → Option β} {P : β → Prop}
    (hf : ∀ a b, f a = some b → P b) :
    ∀ {l : List α} {res : List β}, l.mapM f = some res → ∀ b ∈ res, P b := by
  intro l
  induction l with
  | nil =>
      intro res h b hb
      simp only [List.mapM_nil, pure, Option.some.injEq] at h
      subst h
      simp at hb
  | cons a t ih =>
      intro res h b hb
      rw [List.mapM_cons] at h
      simp only [Option.bind_eq_bind, Option.bind_eq_some, Option.some.injEq, pure] at h
      obtain ⟨x, hx, xs, hxs, rfl⟩ := h
      rcases List.mem_cons.mp hb with rfl | hmem
      · exact hf a b hx
      · exact ih hxs b hmem

/-- A vertex built by procedural `WithId` carries the bound id. -/
theorem Wgpu.withId_fill_prim_id {id : Int} {v : FillVertex} {gv : Wgpu.GpuVertex}
    (h : Wgpu.WithId.newFillVertex id v = some gv) : gv.prim_id = id := by
  unfold Wgpu.WithId.newFillVertex at h
  split at h
  · exact absurd h (by simp)
  · simp only [Option.some.injEq] at h
    subst h
    rfl

/-- A stroke vertex built by procedural `WithId` carries the bound id. -/
theorem Wgpu.withId_stroke_prim_id {id : Int} {v : StrokeVertex} {gv : Wgpu.GpuVertex}
    (h : Wgpu.WithId.newStrokeVertex id v = some gv) : gv.prim_id = id := by
  unfold Wgpu.WithId.newStrokeVertex at h
  split at h
  · exact absurd h (by simp)
  · simp only [Option.some.injEq] at h
    subst h
    rfl

/-- A vertex built by the SVG `VertexCtor` carries the bound id. -/
theorem Svg.vertexCtor_fill_prim_id {id : ℕ} {v : FillVertex} {gv : Svg.GpuVertex}
    (h : Svg.VertexCtor.newFillVertex id v = some gv) : gv.prim_id = id := by
  unfold Svg.VertexCtor.newFillVertex at h
  split at h
  · exact absurd h (by simp)
  · simp only [Option.some.injEq] at h
    subst h
    rfl

/-- A stroke vertex built by the SVG `VertexCtor` carries the bound id. -/
theorem Svg.vertexCtor_stroke_prim_id {id : ℕ} {v : StrokeVertex} {gv : Svg.GpuVertex}
    (h : Svg.VertexCtor.newStrokeVertex id v = some gv) : gv.prim_id = id := by
  unfold Svg.VertexCtor.newStrokeVertex at h
  split at h
  · exact absurd h (by simp)
  · simp only [Option.some.injEq] at h
    subst h
    rfl

/-- Appending one primitive together with a segment of vertices all tagged
with its index preserves `tagged`. -/
theorem Svg.tagged_append {prims : List Svg.GpuPrimitive} {mesh : List Svg.GpuVertex}
    {p : Svg.GpuPrimitive} {vs : List Svg.GpuVertex}
    (h : Svg.tagged prims mesh) (hvs : ∀ v ∈ vs, v.prim_id = prims.length) :
    Svg.tagged (prims ++ [p]) (mesh ++ vs) := by
  obtain ⟨segs, hmesh, hlen, htag⟩ := h
  refine ⟨segs ++ [vs], by simp [hmesh], by simp [hlen], ?_⟩
  intro i hi v hv
  rw [List.length_append, List.length_singleton] at hi
  rcases Nat.lt_succ_iff_lt_or_eq.mp hi with hi' | rfl
  · rw [List.getD_append _ _ _ _ hi'] at hv
    exact htag i hi' v hv
  · rw [List.getD_append_right _ _ _ _ (Nat.le_refl _)] at hv
    simp only [Nat.sub_self, List.getD_cons_zero] at hv
    exact (hvs v hv).trans hlen.symm

/-- The fill block preserves `tagged`. -/
theorem Svg.fillStep_tagged {idx : ℕ} {fill : Option Svg.FillData}
    {prims : List Svg.GpuPrimitive} {mesh : List Svg.GpuVertex}
    {pm : List Svg.GpuPrimitive × List Svg.GpuVertex}
    (h : Svg.fillStep idx fill prims mesh = some pm)
    (ht : Svg.tagged prims mesh) : Svg.tagged pm.1 pm.2 := by
  cases fill with
  | none =>
      simp only [Svg.fillStep, Option.some.injEq] at h
      subst h
      exact ht
  | some fd =>
      simp only [Svg.fillStep, Option.map_eq_some'] at h
      obtain ⟨nv, hnv, rfl⟩ := h
      refine Svg.tagged_append ht ?_
      intro v hv
      have := mapM_option_forall
        (P := fun gv : Svg.GpuVertex => gv.prim_id =
          (prims ++ [Svg.GpuPrimitive.new idx (Svg.resolvePaint fd.paint) fd.opacity]).length - 1)
        (fun a b hb => Svg.vertexCtor_fill_prim_id hb) hnv v hv
      simpa using this

/-- The stroke block preserves `tagged`. -/
theorem Svg.strokeStep_tagged {idx : ℕ} {stroke : Option Svg.StrokeData}
    {prims : List Svg.GpuPrimitive} {mesh : List Svg.GpuVertex}
    {pm : List Svg.GpuPrimitive × List Svg.GpuVertex}
    (h : Svg.strokeStep idx stroke prims mesh = some pm)
    (ht : Svg.tagged prims mesh) : Svg.tagged pm.1 pm.2 := by
  cases stroke with
  | none =>
      simp only [Svg.strokeStep, Option.some.injEq] at h
      subst h
      exact ht
  | some sd =>
      simp only [Svg.strokeStep, Option.map_eq_some'] at h
      obtain ⟨nv, hnv, rfl⟩ := h
      refine Svg.tagged_append ht ?_
      intro v hv
      have := mapM_option_forall
        (P := fun gv : Svg.GpuVertex => gv.prim_id =
          (prims ++ [Svg.GpuPrimitive.new idx (Svg.resolvePaint sd.paint) sd.opacity]).length - 1)
        (fun a b hb => Svg.vertexCtor_stroke_prim_id hb) hnv v hv
      simpa using this

/-- What one node step does to the traversal state: it records the node's
transform as previous, pushes a transform record exactly when the transform
differs from the previous one, and preserves `tagged`. -/
theorem Svg.processNode_char {st st' : Svg.BuildState} {n : Svg.SvgNode}
    (h : Svg.processNode st n = some st') :
    st'.prevTransform = some n.transform ∧
    st'.transforms = (if some n.transform ≠ st.prevTransform then
        st.transforms ++ [Svg.GpuTransform.ofTransform n.transform] else st.transforms) ∧
    (Svg.tagged st.primitives st.mesh → Svg.tagged st'.primitives st'.mesh) := by
  simp only [Svg.processNode, Option.bind_eq_bind, Option.bind_eq_some, Option.pure_def,
    Option.some.injEq] at h
  obtain ⟨pm1, h1, pm2, h2, rfl⟩ := h
  exact ⟨rfl, rfl, fun ht => Svg.strokeStep_tagged h2 (Svg.fillStep_tagged h1 ht)⟩

/-- The traversal preserves `meshTagged`. -/
theorem Svg.foldlM_tagged :
    ∀ (ns : List Svg.SvgNode) (st st' : Svg.BuildState),
      ns.foldlM Svg.processNode st = some st' → Svg.meshTagged st → Svg.meshTagged st' := by
  intro ns
  induction ns with
  | nil =>
      intro st st' h ht
      simp only [List.foldlM_nil, pure, Option.some.injEq] at h
      subst h
      exact ht
  | cons n rest ih =>
      intro st st' h ht
      rw [List.foldlM_cons] at h
      simp only [Option.bind_eq_bind, Option.bind_eq_some] at h
      obtain ⟨st₁, h₁, hrest⟩ := h
      exact ih st₁ st' hrest ((Svg.processNode_char h₁).2.2 ht)

/-- The transform records the traversal pushes are `dedupFrom` of the node
transforms, relative to the previously seen transform. -/
theorem Svg.foldlM_transforms :
    ∀ (ns : List Svg.SvgNode) (st st' : Svg.BuildState),
      ns.foldlM Svg.processNode st = some st' →
      st'.transforms = st.transforms ++
        (Svg.dedupFrom st.prevTransform (ns.map Svg.SvgNode.transform)).map
          Svg.GpuTransform.ofTransform := by
  intro ns
  induction ns with
  | nil =>
      intro st st' h
      simp only [List.foldlM_nil, pure, Option.some.injEq] at h
      subst h
      simp [Svg.dedupFrom]
  | cons n rest ih =>
      intro st st' h
      rw [List.foldlM_cons] at h
      simp only [Option.bind_eq_bind, Option.bind_eq_some] at h
      obtain ⟨st₁, h₁, hrest⟩ := h
      obtain ⟨hprev, htrans, -⟩ := Svg.processNode_char h₁
      rw [ih st₁ st' hrest, htrans, hprev, List.map_cons, Svg.dedupFrom]
      by_cases hc : some n.transform ≠ st.prevTransform
      · rw [if_pos hc, if_pos hc]
        simp
      · rw [if_neg hc, if_neg hc]
        simp

/-- The inner loop of the spec-side collapse agrees with `dedupFrom`. -/
theorem Svg.go_eq_dedupFrom :
    ∀ (ts : List Svg.Transform) (p : Svg.Transform),
      Svg.specCollapseConsecutive.go p ts = Svg.dedupFrom (some p) ts := by
  intro ts
  induction ts with
  | nil => intro p; rfl
  | cons t rest ih =>
      intro p
      rw [Svg.specCollapseConsecutive.go, Svg.dedupFrom]
      by_cases hc : t = p
      · subst hc
        rw [if_pos rfl, if_neg (by simp)]
        simpa using ih t
      · rw [if_neg hc, if_pos (by simpa using hc)]
        simpa using ih t

/-- Starting from the sentinel, `dedupFrom` is the spec-side collapse. -/
theorem Svg.dedupFrom_none_eq_spec (ts : List Svg.Transform) :
    Svg.dedupFrom none ts = Svg.specCollapseConsecutive ts := by
  cases ts with
  | nil => rfl
  | cons t rest =>
      rw [Svg.dedupFrom, Svg.specCollapseConsecutive, if_pos (by simp)]
      simpa using (Svg.go_eq_dedupFrom rest t).symm

/-- A node without paint only updates the transform bookkeeping. -/
theorem Svg.processNode_plain (st : Svg.BuildState) (t : Svg.Transform) :
    Svg.processNode st (Svg.plainNode t) = some
      { transforms := if some t ≠ st.prevTransform then
          st.transforms ++ [Svg.GpuTransform.ofTransform t] else st.transforms,
        primitives := st.primitives, mesh := st.mesh, prevTransform := some t } := by
  simp [Svg.processNode, Svg.plainNode, Svg.fillStep, Svg.strokeStep]

/-- A traversal of paint-free nodes always succeeds. -/
theorem Svg.plain_foldlM_some :
    ∀ (ts : List Svg.Transform) (st : Svg.BuildState),
      ∃ st', (ts.map Svg.plainNode).foldlM Svg.processNode st = some st' := by
  intro ts
  induction ts with
  | nil => intro st; exact ⟨st, rfl⟩
  | cons t rest ih =>
      intro st
      rw [List.map_cons, List.foldlM_cons, Svg.processNode_plain]
      simpa using ih _

/-- Shape of a successful procedural geometry build. -/
theorem Wgpu.buildLogoGeometry_char {fes : List FillVertex} {fis : List ℕ}
    {ses : List StrokeVertex} {sis : List ℕ} {g : Wgpu.LogoGeometry}
    (h : Wgpu.buildLogoGeometry fes fis ses sis = some g) :
    ∃ fv sv, fes.mapM (Wgpu.WithId.newFillVertex Wgpu.fill_prim_id) = some fv ∧
      ses.mapM (Wgpu.WithId.newStrokeVertex Wgpu.stroke_prim_id) = some sv ∧
      g = { geometry := { vertices := fv ++ sv, indices := fis ++ sis },
            fill_range := (0, fis.length),
            stroke_range := (fis.length, (fis ++ sis).length) } := by
  simp only [Wgpu.buildLogoGeometry, Wgpu.tessellateInto, Option.bind_eq_bind,
    Option.bind_eq_some, Option.pure_def, Option.some.injEq] at h
  obtain ⟨fv, hfv, sv, hsv, rfl⟩ := h
  exact ⟨fv, sv, hfv, hsv, by simp⟩

/-- The empty traversal state is tagged. -/
theorem svg_tagged_init : Svg.meshTagged Svg.initBuildState :=
  ⟨[], rfl, rfl, by simp⟩

/-- If a segment list contains no `ClosePath`, the adapter emits no `Close`
event, from any iterator state. -/
theorem Svg.convertPathFrom_no_close :
    ∀ (segs : List Svg.PathSegment) (st : Svg.ConvState),
      Svg.PathSegment.closePath ∉ segs →
      ∀ e ∈ Svg.convertPathFrom st segs, e.isClose = false := by
  intro segs
  induction segs with
  | nil =>
      intro st h e he
      simp [Svg.convertPathFrom] at he
  | cons seg rest ih =>
      intro st h e he
      rw [Svg.convertPathFrom] at he
      rcases List.mem_cons.mp he with rfl | hmem
      · cases seg with
        | closePath => exact absurd (List.mem_cons_self _ _) h
        | moveTo x y => rfl
        | lineTo x y => rfl
        | curveTo x1 y1 x2 y2 x y => rfl
      · exact ih _ (fun hc => h (List.mem_cons_of_mem _ hc)) e hmem

/-! Claim theorems. -/

/-- C1: every vertex emitted by a tessellation pass carries `prim_id` equal
to the id bound in the vertex constructor at construction time.  In the
procedural variant the `WithId` constructors forward the bound id (stroke
pass bound to `stroke_prim_id = 0`, fill pass to `fill_prim_id = 1`); in the
SVG variant the mesh splits into one segment per fill/stroke operation in
document-traversal order, the segment count equals the primitive count (so
ids form the dense range `0..count`), and every vertex of segment `i`
carries `prim_id = i`. -/
theorem c1_prim_id_matches_bound_id :
    (∀ (id : Int) (v : FillVertex) (gv : Wgpu.GpuVertex),
        Wgpu.WithId.newFillVertex id v = some gv → gv.prim_id = id) ∧
    (∀ (id : Int) (v : StrokeVertex) (gv : Wgpu.GpuVertex),
        Wgpu.WithId.newStrokeVertex id v = some gv → gv.prim_id = id) ∧
    (∀ (fes : List FillVertex) (fis : List ℕ) (ses : List StrokeVertex) (sis : List ℕ)
        (g : Wgpu.LogoGeometry), Wgpu.buildLogoGeometry fes fis ses sis = some g →
        ∃ fv sv, g.geometry.vertices = fv ++ sv ∧
          (∀ v ∈ fv, v.prim_id = Wgpu.fill_prim_id) ∧
          (∀ v ∈ sv, v.prim_id = Wgpu.stroke_prim_id)) ∧
    (∀ (nodes : List Svg.SvgNode) (st : Svg.BuildState),
        Svg.svgBuild nodes = some st → Svg.meshTagged st) := by
  refine ⟨fun id v gv h => Wgpu.withId_fill_prim_id h,
    fun id v gv h => Wgpu.withId_stroke_prim_id h, ?_, ?_⟩
  · intro fes fis ses sis g h
    obtain ⟨fv, sv, hfv, hsv, rfl⟩ := Wgpu.buildLogoGeometry_char h
    exact ⟨fv, sv, rfl,
      mapM_option_forall (fun a b hb => Wgpu.withId_fill_prim_id hb) hfv,
      mapM_option_forall (fun a b hb => Wgpu.withId_stroke_prim_id hb) hsv⟩
  · intro nodes st h
    exact Svg.foldlM_tagged nodes Svg.initBuildState st h svg_tagged_init

/-- Witness for C1 at concrete inputs. -/
theorem c1_prim_id_matches_bound_id_witness :
    gfv0.prim_id = 7 ∧ gsv0.prim_id = 5 ∧
    (∃ fv sv, ([] : List Wgpu.GpuVertex) = fv ++ sv ∧
      (∀ v ∈ fv, v.prim_id = Wgpu.fill_prim_id) ∧
      (∀ v ∈ sv, v.prim_id = Wgpu.stroke_prim_id)) ∧
    Svg.meshTagged st0 := by
  refine ⟨c1_prim_id_matches_bound_id.1 7 fv0 gfv0 (by decide),
    c1_prim_id_matches_bound_id.2.1 5 sv0 gsv0 (by decide), ?_, ?_⟩
  · have := c1_prim_id_matches_bound_id.2.2.1 [] [10, 11, 12] [] [13]
      { geometry := { vertices := [], indices := [10, 11, 12, 13] },
        fill_range := (0, 3), stroke_range := (3, 4) } (by decide)
    simpa using this
  · exact c1_prim_id_matches_bound_id.2.2.2 [node0] st0 (by
      norm_num [Svg.svgBuild, Svg.processNode, Svg.fillStep, Svg.strokeStep,
        Svg.GpuPrimitive.new, Svg.resolvePaint, node0, st0, fv0,
        Svg.VertexCtor.newFillVertex, Svg.GpuTransform.ofTransform, Svg.initBuildState,
        List.mapM.loop, Option.some_ne_none, Rat.floor_def']
      decide)

/-- C2: after the fill pass and then the stroke pass append into the shared
buffer, `fill_range = 0..fill_count.indices` and
`stroke_range = fill_count.indices..indices.len()` are disjoint index ranges
whose union covers the whole index buffer exactly once. -/
theorem c2_fill_stroke_ranges_partition :
    ∀ (fes : List FillVertex) (fis : List ℕ) (ses : List StrokeVertex) (sis : List ℕ)
      (g : Wgpu.LogoGeometry), Wgpu.buildLogoGeometry fes fis ses sis = some g →
      g.fill_range.1 = 0 ∧
      g.fill_range.2 = g.stroke_range.1 ∧
      g.stroke_range.2 = g.geometry.indices.length ∧
      Disjoint (Finset.Ico g.fill_range.1 g.fill_range.2)
        (Finset.Ico g.stroke_range.1 g.stroke_range.2) ∧
      Finset.Ico g.fill_range.1 g.fill_range.2 ∪
        Finset.Ico g.stroke_range.1 g.stroke_range.2 =
        Finset.range g.geometry.indices.length := by
  intro fes fis ses sis g h
  obtain ⟨fv, sv, hfv, hsv, rfl⟩ := Wgpu.buildLogoGeometry_char h
  refine ⟨rfl, rfl, rfl, Finset.Ico_disjoint_Ico_consecutive 0 fis.length _, ?_⟩
  rw [Finset.range_eq_Ico]
  exact Finset.Ico_union_Ico_eq_Ico (Nat.zero_le _) (by simp)

/-- Witness for C2 at a concrete build. -/
theorem c2_fill_stroke_ranges_partition_witness :
    Disjoint (Finset.Ico 0 3) (Finset.Ico 3 4) ∧
    Finset.Ico 0 3 ∪ Finset.Ico 3 4 = Finset.range 4 := by
  have := c2_fill_stroke_ranges_partition [] [10, 11, 12] [] [13]
    { geometry := { vertices := [], indices := [10, 11, 12, 13] },
      fill_range := (0, 3), stroke_range := (3, 4) } (by decide)
  exact ⟨this.2.2.2.1, by simpa using this.2.2.2.2⟩

/-- C3 counterexample: the claim asserts the step never crosses the target
for every non-negative `k`, but for `k = 1/2 ≥ 0` the step from `0` toward
target `1` lands at `2`, crossing the target (the sign of
`target - current` flips). -/
theorem c3_smoothing_counterexample :
    0 ≤ (1/2 : ℚ) ∧ smoothStep (1/2) 0 1 = 2 ∧
    ((1 : ℚ) - smoothStep (1/2) 0 1) * (1 - 0) < 0 := by
  norm_num [smoothStep]

/-- C3 (amended): one smoothing step `current + (target - current) / k`
leaves a fixed point unchanged; for `k > 1` the distance to the target
strictly decreases; and for `k ≥ 1` (rather than all non-negative `k`) the
step never crosses the target. -/
theorem c3_smoothing_amended (k current target : ℚ) :
    (current = target → smoothStep k current target = current) ∧
    (1 < k → current ≠ target →
      |target - smoothStep k current target| < |target - current|) ∧
    (1 ≤ k → 0 ≤ (target - smoothStep k current target) * (target - current)) := by
  refine ⟨?_, ?_, ?_⟩
  · intro h
    subst h
    simp [smoothStep]
  · intro hk hne
    have hk0 : (0:ℚ) < k := lt_trans one_pos hk
    have hne' : target - current ≠ 0 := sub_ne_zero.mpr (Ne.symm hne)
    have key : target - smoothStep k current target = (target - current) * (1 - 1/k) := by
      field_simp [smoothStep]
      ring
    have hfrac0 : (0:ℚ) ≤ 1 - 1/k := by
      have : 1/k ≤ 1 := by
        rw [div_le_one hk0]
        exact le_of_lt hk
      linarith
    have hfrac1 : 1 - 1/k < 1 := by
      have : (0:ℚ) < 1/k := by positivity
      linarith
    rw [key, abs_mul, abs_of_nonneg hfrac0]
    calc |target - current| * (1 - 1/k) < |target - current| * 1 :=
          mul_lt_mul_of_pos_left hfrac1 (abs_pos.mpr hne')
      _ = |target - current| := mul_one _
  · intro hk
    have hk0 : (0:ℚ) < k := lt_of_lt_of_le one_pos hk
    have key : target - smoothStep k current target = (target - current) * (1 - 1/k) := by
      field_simp [smoothStep]
      ring
    have hfrac0 : (0:ℚ) ≤ 1 - 1/k := by
      have : 1/k ≤ 1 := by
        rw [div_le_one hk0]
        exact hk
      linarith
    rw [key]
    calc (0:ℚ) ≤ (target - current) ^ 2 * (1 - 1/k) :=
          mul_nonneg (sq_nonneg _) hfrac0
      _ = (target - current) * (1 - 1/k) * (target - current) := by ring

/-- Witness for C3 (amended) at `k = 3`, `current = 0` or `1`, `target = 1`. -/
theorem c3_smoothing_amended_witness :
    smoothStep 3 (1:ℚ) 1 = 1 ∧
    |(1:ℚ) - smoothStep 3 0 1| < |(1:ℚ) - 0| ∧
    0 ≤ ((1:ℚ) - smoothStep 3 0 1) * (1 - 0) :=
  ⟨(c3_smoothing_amended 3 1 1).1 rfl,
   (c3_smoothing_amended 3 0 1).2.1 (by norm_num) (by norm_num),
   (c3_smoothing_amended 3 0 1).2.2 (by norm_num)⟩

/-- C4 counterexample: on the events-drained notification (`EventsCleared`)
no smoothing step is taken (`zoom` stays `0` although `target_zoom = 3`),
while an event processed while polling does take a smoothing step (`zoom`
becomes `1`) — the opposite of the claim. -/
theorem c4_smoothing_counterexample :
    ((Wgpu.update_inputs .eventsCleared .poll sProc0).1 = false ∧
     (Wgpu.update_inputs .eventsCleared .poll sProc0).2.2.zoom = 0) ∧
    ((Wgpu.update_inputs .other .poll sProc0).1 = true ∧
     (Wgpu.update_inputs .other .poll sProc0).2.2.zoom = 1) := by
  refine ⟨⟨rfl, rfl⟩, rfl, ?_⟩
  norm_num [Wgpu.update_inputs, Wgpu.smoothScene, smoothStep, sProc0]

/-- C4 (amended): `update_inputs` applies one smoothing step (k = 3 for zoom
and scroll, k = 5 for stroke width) per input event processed while polling —
every event except the events-drained notification and the terminal
close/destroy/Escape events — and applies no smoothing step on the
events-drained (ready-to-render) notification. -/
theorem c4_smoothing_per_event :
    (∀ cf s, Wgpu.update_inputs .eventsCleared cf s = (false, cf, s)) ∧
    (∀ cf s, Wgpu.update_inputs .closeRequested cf s = (false, .exit, s)) ∧
    (∀ cf s, Wgpu.update_inputs .destroyed cf s = (false, .exit, s)) ∧
    (∀ cf s, Wgpu.update_inputs (.keyPressed .escape) cf s = (false, .exit, s)) ∧
    (∀ cf s x y, Wgpu.update_inputs (.cursorMoved x y) cf s =
      (true, .poll, Wgpu.smoothScene { s with cursor_position := (x, y) })) ∧
    (∀ cf s w h, Wgpu.update_inputs (.resized w h) cf s =
      (true, .poll, Wgpu.smoothScene { s with window_size := (w, h), size_changed := true })) ∧
    (∀ cf s k, k ≠ Wgpu.Key.escape → Wgpu.update_inputs (.keyPressed k) cf s =
      (true, .poll, Wgpu.smoothScene (Wgpu.applyKey k s))) ∧
    (∀ cf s, Wgpu.update_inputs .other cf s = (true, .poll, Wgpu.smoothScene s)) := by
  refine ⟨fun cf s => rfl, fun cf s => rfl, fun cf s => rfl, fun cf s => rfl,
    fun cf s x y => rfl, fun cf s w h => rfl, ?_, fun cf s => rfl⟩
  intro cf s k hk
  cases k with
  | escape => exact absurd rfl hk
  | _ => rfl

/-- Witness for C4 (amended) at a concrete non-Escape key press. -/
theorem c4_smoothing_per_event_witness :
    Wgpu.update_inputs (.keyPressed .pageUp) .poll sProc0 =
      (true, .poll, Wgpu.smoothScene (Wgpu.applyKey .pageUp sProc0)) :=
  c4_smoothing_per_event.2.2.2.2.2.2.1 .poll sProc0 .pageUp (by decide)

/-- C5 counterexample: the tick that processes a `CloseRequested` (or
`Destroyed`) event sets the exit control flow but still renders — the
primitive-table/globals writes and the draw submission of that tick happen
after the event is processed, contradicting the claim that no such write
occurs. -/
theorem c5_close_counterexample :
    (Wgpu.mainLoopTick .closeRequested .poll sProc0).rendered = true ∧
    (Wgpu.mainLoopTick .closeRequested .poll sProc0).cf = .exit ∧
    (Wgpu.mainLoopTick .destroyed .poll sProc0).rendered = true := by
  decide

/-- C5 (amended): a close/destroy event sets the exit signal, but
`update_inputs` returns `false` for it, so the loop body stages the
primitive table and globals and submits the draw calls once more during the
very tick that processes the event; the event loop dispatches no events
after that tick, so exactly that one final frame is rendered and events
after the close contribute nothing. -/
theorem c5_close_renders_final_frame :
    (∀ cf s, (Wgpu.mainLoopTick .closeRequested cf s).cf = .exit ∧
      (Wgpu.mainLoopTick .closeRequested cf s).rendered = true ∧
      (Wgpu.mainLoopTick .destroyed cf s).cf = .exit ∧
      (Wgpu.mainLoopTick .destroyed cf s).rendered = true) ∧
    (∀ cf s, Wgpu.runLoop [.closeRequested] cf s = 1) ∧
    (∀ es1 es2 cf s, Wgpu.runLoop (es1 ++ .closeRequested :: es2) cf s =
      Wgpu.runLoop (es1 ++ [.closeRequested]) cf s) := by
  have tick : ∀ (e : Wgpu.Evt), e = .closeRequested ∨ e = .destroyed →
      ∀ cf s, (Wgpu.mainLoopTick e cf s).cf = .exit ∧
        (Wgpu.mainLoopTick e cf s).rendered = true := by
    rintro e (rfl | rfl) cf s <;>
      simp [Wgpu.mainLoopTick, Wgpu.update_inputs]
  refine ⟨fun cf s => ⟨(tick _ (Or.inl rfl) cf s).1, (tick _ (Or.inl rfl) cf s).2,
    (tick _ (Or.inr rfl) cf s).1, (tick _ (Or.inr rfl) cf s).2⟩, ?_, ?_⟩
  · intro cf s
    rw [Wgpu.runLoop, (tick _ (Or.inl rfl) cf s).2, (tick _ (Or.inl rfl) cf s).1]
    simp
  · intro es1
    induction es1 with
    | nil =>
        intro es2 cf s
        rw [List.nil_append, List.nil_append, Wgpu.runLoop, Wgpu.runLoop,
          (tick _ (Or.inl rfl) cf s).1]
        simp
    | cons e rest ih =>
        intro es2 cf s
        rw [List.cons_append, List.cons_append, Wgpu.runLoop, Wgpu.runLoop, ih]

/-- C6: the traversal's transform table is exactly the node transforms with
consecutive repeats collapsed (comparison with the immediately previous
transform only), and the sequence `[A, A, B, A]` with `A ≠ B` yields exactly
3 transform records, `[A, B, A]`. -/
theorem c6_transform_dedup :
    (∀ (nodes : List Svg.SvgNode) (st : Svg.BuildState),
      Svg.svgBuild nodes = some st →
      st.transforms = (Svg.specCollapseConsecutive (nodes.map Svg.SvgNode.transform)).map
        Svg.GpuTransform.ofTransform) ∧
    (∀ A B : Svg.Transform, A ≠ B → ∃ st,
      Svg.svgBuild [Svg.plainNode A, Svg.plainNode A, Svg.plainNode B, Svg.plainNode A] =
        some st ∧
      st.transforms = [Svg.GpuTransform.ofTransform A, Svg.GpuTransform.ofTransform B,
        Svg.GpuTransform.ofTransform A] ∧
      st.transforms.length = 3) := by
  have general : ∀ (nodes : List Svg.SvgNode) (st : Svg.BuildState),
      Svg.svgBuild nodes = some st →
      st.transforms = (Svg.specCollapseConsecutive (nodes.map Svg.SvgNode.transform)).map
        Svg.GpuTransform.ofTransform := by
    intro nodes st h
    have := Svg.foldlM_transforms nodes Svg.initBuildState st h
    simpa [Svg.initBuildState, Svg.dedupFrom_none_eq_spec] using this
  refine ⟨general, ?_⟩
  intro A B hAB
  obtain ⟨st, hst⟩ := Svg.plain_foldlM_some [A, A, B, A] Svg.initBuildState
  refine ⟨st, hst, ?_⟩
  have htr := general [Svg.plainNode A, Svg.plainNode A, Svg.plainNode B, Svg.plainNode A] st hst
  rw [htr]
  simp [Svg.plainNode, Svg.specCollapseConsecutive, Svg.specCollapseConsecutive.go,
    hAB, Ne.symm hAB]

/-- Witness for C6 at two concrete distinct transforms. -/
theorem c6_transform_dedup_witness :
    ∃ st, Svg.svgBuild [Svg.plainNode { a := 1, b := 0, c := 0, d := 1, e := 0, f := 0 },
      Svg.plainNode { a := 1, b := 0, c := 0, d := 1, e := 0, f := 0 },
      Svg.plainNode { a := 2, b := 0, c := 0, d := 1, e := 0, f := 0 },
      Svg.plainNode { a := 1, b := 0, c := 0, d := 1, e := 0, f := 0 }] = some st ∧
    st.transforms =
      [Svg.GpuTransform.ofTransform { a := 1, b := 0, c := 0, d := 1, e := 0, f := 0 },
       Svg.GpuTransform.ofTransform { a := 2, b := 0, c := 0, d := 1, e := 0, f := 0 },
       Svg.GpuTransform.ofTransform { a := 1, b := 0, c := 0, d := 1, e := 0, f := 0 }] ∧
    st.transforms.length = 3 :=
  c6_transform_dedup.2 _ _ (by decide)

/-- C7 counterexample: the claim says the synthesized closing segment runs
from the point that was current before the Close — `(3, 4)` here — back to
the subpath's first point `(1, 2)`; the adapter actually resets `prev` to
`first` before building the segment, so the emitted event is
`Close((1,2) → (1,2))`, not `Close((3,4) → (1,2))`. -/
theorem c7_close_segment_counterexample :
    Svg.convertPath [.moveTo 1 2, .lineTo 3 4, .closePath] =
      [.moveTo (1, 2), .line (1, 2) (3, 4), .close (1, 2) (1, 2)] ∧
    Svg.convertPath [.moveTo 1 2, .lineTo 3 4, .closePath] ≠
      [.moveTo (1, 2), .line (1, 2) (3, 4), .close (3, 4) (1, 2)] := by
  decide

/-- C7 (amended): on an explicit `ClosePath` the adapter emits a `Close`
event carrying the degenerate segment from the subpath's first point to that
same first point (the current point is reset to the first point before the
segment is built), and after the event the current point equals the first
point; if the input contains no explicit `ClosePath`, no `Close` event is
emitted. -/
theorem c7_close_event_amended :
    (∀ st : Svg.ConvState, Svg.convStep st .closePath =
      ({ st with prev := st.first }, .close st.first st.first)) ∧
    (∀ segs : List Svg.PathSegment, Svg.PathSegment.closePath ∉ segs →
      ∀ e ∈ Svg.convertPath segs, e.isClose = false) :=
  ⟨fun _ => rfl, fun segs h => Svg.convertPathFrom_no_close segs _ h⟩

/-- Witness for C7 (amended) at a concrete state and segment list. -/
theorem c7_close_event_amended_witness :
    Svg.convStep { prev := (3, 4), first := (1, 2) } .closePath =
      ({ prev := (1, 2), first := (1, 2) }, .close (1, 2) (1, 2)) ∧
    ∀ e ∈ Svg.convertPath [.moveTo 1 2, .lineTo 3 4], e.isClose = false :=
  ⟨c7_close_event_amended.1 { prev := (3, 4), first := (1, 2) },
   c7_close_event_amended.2 [.moveTo 1 2, .lineTo 3 4] (by decide)⟩

/-- C8: each arrow key changes the pan coordinate of its axis by plus or
minus `50` divided by that same pan coordinate; the zoom factor is neither
the divisor nor otherwise touched, and at a zero pan coordinate the divisor
of the update is `0`. -/
theorem c8_svg_pan_divides_by_pan :
    (∀ cf s, (Svg.update_inputs (.keyPressed .left) cf s).2.2 =
      { s with pan := (s.pan.1 - 50 / s.pan.1, s.pan.2) }) ∧
    (∀ cf s, (Svg.update_inputs (.keyPressed .right) cf s).2.2 =
      { s with pan := (s.pan.1 + 50 / s.pan.1, s.pan.2) }) ∧
    (∀ cf s, (Svg.update_inputs (.keyPressed .up) cf s).2.2 =
      { s with pan := (s.pan.1, s.pan.2 + 50 / s.pan.2) }) ∧
    (∀ cf s, (Svg.update_inputs (.keyPressed .down) cf s).2.2 =
      { s with pan := (s.pan.1, s.pan.2 - 50 / s.pan.2) }) ∧
    (∀ cf s, (Svg.update_inputs (.keyPressed .left) cf s).2.2.zoom = s.zoom ∧
      (Svg.update_inputs (.keyPressed .right) cf s).2.2.zoom = s.zoom ∧
      (Svg.update_inputs (.keyPressed .up) cf s).2.2.zoom = s.zoom ∧
      (Svg.update_inputs (.keyPressed .down) cf s).2.2.zoom = s.zoom) ∧
    (∀ cf s, s.pan.1 = 0 →
      (Svg.update_inputs (.keyPressed .left) cf s).2.2.pan.1 = 0 - 50 / 0) := by
  refine ⟨fun cf s => rfl, fun cf s => rfl, fun cf s => rfl, fun cf s => rfl,
    fun cf s => ⟨rfl, rfl, rfl, rfl⟩, ?_⟩
  intro cf s h
  show s.pan.1 - 50 / s.pan.1 = 0 - 50 / 0
  rw [h]

/-- Witness for C8 at a scene whose pan sits at the origin. -/
theorem c8_svg_pan_divides_by_pan_witness :
    (Svg.update_inputs (.keyPressed .left) .poll sSvg0).2.2 =
      { sSvg0 with pan := (sSvg0.pan.1 - 50 / sSvg0.pan.1, sSvg0.pan.2) } ∧
    (Svg.update_inputs (.keyPressed .left) .poll sSvg0).2.2.pan.1 = 0 - 50 / 0 :=
  ⟨c8_svg_pan_divides_by_pan.1 .poll sSvg0,
   c8_svg_pan_divides_by_pan.2.2.2.2.2 .poll sSvg0 rfl⟩

/-- C9 counterexample: not every vertex constructor rejects NaN — the
background constructor `BgVertexCtor` performs no check and forwards a NaN
position, so a GPU vertex with a NaN coordinate is emitted instead of
failing. -/
theorem c9_nan_counterexample :
    Wgpu.BgVertexCtor.newVertex nanFillVertex = nanFillVertex.position ∧
    (Wgpu.BgVertexCtor.newVertex nanFillVertex).x.isNan = true := by
  decide

/-- C9 (amended): the id-tagged vertex constructors assert on NaN — `WithId`
(procedural, via debug assertions) checks position, normal and, for strokes,
advancement; the SVG `VertexCtor` checks only the position — and any vertex
they emit has non-NaN checked components, with `none` (abort) on NaN input;
the background constructor `BgVertexCtor` performs no NaN check and forwards
the position unchanged. -/
theorem c9_nan_checks_amended :
    (∀ (id : Int) (v : FillVertex) (gv : Wgpu.GpuVertex),
      Wgpu.WithId.newFillVertex id v = some gv →
      gv.position.x.isNan = false ∧ gv.position.y.isNan = false ∧
      gv.normal.x.isNan = false ∧ gv.normal.y.isNan = false) ∧
    (∀ (id : Int) (v : StrokeVertex) (gv : Wgpu.GpuVertex),
      Wgpu.WithId.newStrokeVertex id v = some gv →
      gv.position.x.isNan = false ∧ gv.position.y.isNan = false ∧
      gv.normal.x.isNan = false ∧ gv.normal.y.isNan = false ∧
      v.advancement.isNan = false) ∧
    (∀ (id : ℕ) (v : FillVertex) (gv : Svg.GpuVertex),
      Svg.VertexCtor.newFillVertex id v = some gv →
      gv.position.x.isNan = false ∧ gv.position.y.isNan = false) ∧
    (∀ (id : ℕ) (v : StrokeVertex) (gv : Svg.GpuVertex),
      Svg.VertexCtor.newStrokeVertex id v = some gv →
      gv.position.x.isNan = false ∧ gv.position.y.isNan = false) ∧
    (∀ (id : Int) (v : FillVertex),
      (v.position.x.isNan ∨ v.position.y.isNan ∨ v.normal.x.isNan ∨ v.normal.y.isNan) →
      Wgpu.WithId.newFillVertex id v = none) ∧
    (∀ v : FillVertex, Wgpu.BgVertexCtor.newVertex v = v.position) := by
  refine ⟨?_, ?_, ?_, ?_, ?_, fun v => rfl⟩
  · intro id v gv h
    unfold Wgpu.WithId.newFillVertex at h
    split at h
    · exact absurd h (by simp)
    next hcond =>
      simp only [not_or, Bool.not_eq_true] at hcond
      simp only [Option.some.injEq] at h
      subst h
      exact ⟨hcond.1, hcond.2.1, hcond.2.2.1, hcond.2.2.2⟩
  · intro id v gv h
    unfold Wgpu.WithId.newStrokeVertex at h
    split at h
    · exact absurd h (by simp)
    next hcond =>
      simp only [not_or, Bool.not_eq_true] at hcond
      simp only [Option.some.injEq] at h
      subst h
      exact ⟨hcond.1, hcond.2.1, hcond.2.2.1, hcond.2.2.2.1, hcond.2.2.2.2⟩
  · intro id v gv h
    unfold Svg.VertexCtor.newFillVertex at h
    split at h
    · exact absurd h (by simp)
    next hcond =>
      simp only [not_or, Bool.not_eq_true] at hcond
      simp only [Option.some.injEq] at h
      subst h
      exact ⟨hcond.1, hcond.2⟩
  · intro id v gv h
    unfold Svg.VertexCtor.newStrokeVertex at h
    split at h
    · exact absurd h (by simp)
    next hcond =>
      simp only [not_or, Bool.not_eq_true] at hcond
      simp only [Option.some.injEq] at h
      subst h
      exact ⟨hcond.1, hcond.2⟩
  · intro id v h
    unfold Wgpu.WithId.newFillVertex
    rw [if_pos h]

/-- Witness for C9 (amended) at concrete NaN-free and NaN inputs. -/
theorem c9_nan_checks_amended_witness :
    (gfv0.position.x.isNan = false ∧ gfv0.position.y.isNan = false ∧
     gfv0.normal.x.isNan = false ∧ gfv0.normal.y.isNan = false) ∧
    (gsvg0.position.x.isNan = false ∧ gsvg0.position.y.isNan = false) ∧
    Wgpu.WithId.newFillVertex 7 nanFillVertex = none :=
  ⟨c9_nan_checks_amended.1 7 fv0 gfv0 (by decide),
   c9_nan_checks_amended.2.2.1 3 fv0 gsvg0 (by decide),
   c9_nan_checks_amended.2.2.2.2.1 7 nanFillVertex (by decide)⟩

/-- C10: for every parsed `--msaa` value `n` the effective sample count is
`min n 1`, which never exceeds `1` (so the multisample-texture branch
guarded by `msaa_samples > 1` is unreachable for every argument, including
the flag-absent default `1`), and `--msaa 0` yields a sample count of `0`. -/
theorem c10_msaa_min :
    (∀ n : ℕ, Svg.msaaSamples (some (some n)) = some (min n 1)) ∧
    (∀ (arg : Option (Option ℕ)) (m : ℕ), Svg.msaaSamples arg = some m → ¬ 1 < m) ∧
    Svg.msaaSamples (some (some 0)) = some 0 ∧
    Svg.msaaSamples none = some 1 := by
  refine ⟨fun n => rfl, ?_, rfl, rfl⟩
  intro arg m h
  match arg with
  | none =>
      simp only [Svg.msaaSamples, Option.some.injEq] at h
      omega
  | some none =>
      simp [Svg.msaaSamples] at h
  | some (some n) =>
      simp only [Svg.msaaSamples, Option.some.injEq] at h
      omega

/-- Witness for C10 at a concrete parsed value. -/
theorem c10_msaa_min_witness :
    Svg.msaaSamples (some (some 9)) = some (min 9 1) ∧ ¬ 1 < 1 :=
  ⟨c10_msaa_min.1 9, c10_msaa_min.2.1 (some (some 9)) 1 (by decide)⟩
